import Mathlib

/-!
Verification development for the GlobeBeats backend (`backend/main.py`,
`backend/services/itunes_service.py`, `backend/services/rag_service.py`).

The Python source is shallowly embedded: coroutines that stream chunks from a
language-model provider are modelled by the finite list of chunks they emit
followed by an optional raised error; the per-region cache (a Python dict,
insertion ordered) is an association list whose insert replaces in place;
network responses are sum types covering the success / non-200 / exception
branches the source distinguishes.
-/

namespace GlobeBeats

/-- Substring test on character lists: `containsSub needle hay` is true iff
`needle` occurs contiguously inside `hay`.  Models Python's `in` on `str`. -/
def containsSub (needle : List Char) : List Char → Bool
  | [] => needle.isEmpty
  | c :: t => needle.isPrefixOf (c :: t) || containsSub needle t

/-- The characters of `s.lower()` (ASCII case mapping). -/
def lowerChars (s : String) : List Char :=
  s.data.map Char.toLower

/-! ## Streaming chat orchestrator (`stream_response` in `backend/main.py`) -/

/-- One event yielded by the `stream_response` generator.  The JSON payloads in
the source carry `chunk` and `done` always, and `full_response`/`contexts`
only on the terminal record; absent keys are `none`. -/
structure Event where
  chunk : String
  done : Bool
  full_response : Option String
  contexts : Option (List String)
  deriving DecidableEq, Repr

/-- The observable behaviour of one provider's `chat` stream for a fixed
request: the chunks it yields in order, then either normal completion
(`error = none`) or a raised exception whose text is `error = some e`. -/
structure ProviderRun where
  chunks : List String
  error : Option String
  deriving DecidableEq, Repr

/-- Which LLM service object a code path used. -/
inductive Svc where
  | primary
  | fallback
  deriving DecidableEq, Repr

/-- Process-wide LLM configuration relevant to `stream_response`:
`settings.llm_provider` and whether `fallback_llm_service` is non-None. -/
structure LLMConfig where
  provider : String
  fallbackConfigured : Bool
  deriving DecidableEq, Repr

/-- A plain `{chunk, done: false}` fragment. -/
def chunkEvent (c : String) : Event :=
  { chunk := c, done := false, full_response := none, contexts := none }

/-- The terminal `{chunk: "", done: true, full_response, contexts}` record
emitted at the end of `stream_response`. -/
def terminalEvent (full : String) (contexts : List String) : Event :=
  { chunk := "", done := true, full_response := some full, contexts := some contexts }

/-- The failover notice (`main.py` lines 271–281): a `done: true` sub-message
announcing the provider switch. -/
def noticeEvent (cfg : LLMConfig) : Event :=
  let primary_name := if cfg.provider = "anthropic" then "Anthropic (Claude)" else "OpenAI"
  let fallback_name := if cfg.provider = "anthropic" then "OpenAI (GPT-4)" else "Anthropic (Claude)"
  { chunk := "⚠️ " ++ primary_name ++ " is overloaded. Switching to " ++ fallback_name ++ "..."
    done := true, full_response := none, contexts := none }

/-- Error classification at `main.py` line 269:
`"overloaded" in error_str.lower() or "rate_limit" in error_str.lower()`. -/
def isRetriable (errorStr : String) : Bool :=
  containsSub "overloaded".data (lowerChars errorStr) ||
    containsSub "rate_limit".data (lowerChars errorStr)

/-- Which service `stream_response` selects (`main.py` lines 243–247):
`"fallback"` preference selects the fallback service when configured,
anything else selects the primary. -/
def selectedSvc (cfg : LLMConfig) (pref : String) : Svc :=
  if pref = "fallback" ∧ cfg.fallbackConfigured then .fallback else .primary

/-- Result of running the `stream_response` generator to exhaustion: the events
yielded, and the provider services whose `chat` was invoked, in order. -/
structure StreamResult where
  events : List Event
  attempts : List Svc
  deriving DecidableEq, Repr

/-- The behaviour of the service `stream_response` selected. -/
def selRun (cfg : LLMConfig) (pref : String) (primaryRun fallbackRun : ProviderRun) :
    ProviderRun :=
  match selectedSvc cfg pref with
  | .fallback => fallbackRun
  | .primary => primaryRun

/-- Shallow embedding of the `stream_response` generator (`main.py` 239–331).
`primaryRun`/`fallbackRun` give each provider's behaviour for this request;
`full_response` accumulates the chunks of the stream currently running and is
reset to `""` (line 285) when the failover attempt starts. -/
def stream_response (cfg : LLMConfig) (pref : String)
    (primaryRun fallbackRun : ProviderRun) (contexts : List String) : StreamResult :=
  let selected := selectedSvc cfg pref
  let run := selRun cfg pref primaryRun fallbackRun
  let selEvents := run.chunks.map chunkEvent
  let selFull := String.join run.chunks
  match run.error with
  | none =>
      { events := selEvents ++ [terminalEvent selFull contexts], attempts := [selected] }
  | some e =>
      if pref = "auto" ∧ cfg.fallbackConfigured ∧ selected = .primary then
        if isRetriable e then
          -- lines 270–304: notice, reset accumulator, stream the fallback
          let fbEvents := fallbackRun.chunks.map chunkEvent
          let fbFull := String.join fallbackRun.chunks
          let fbTail := match fallbackRun.error with
            | none => []
            | some _ =>
                [chunkEvent "⚠️ Both AI providers are unavailable. Please try again in a moment."]
          { events := selEvents ++ noticeEvent cfg :: fbEvents ++ fbTail
                        ++ [terminalEvent fbFull contexts]
            attempts := [.primary, .fallback] }
        else
          -- lines 305–312: non-retriable error on the primary
          let provider_name := if cfg.provider = "anthropic" then "Anthropic (Claude)" else "OpenAI"
          { events := selEvents ++ [chunkEvent ("⚠️ " ++ provider_name ++ " error: " ++ e.take 150),
                        terminalEvent selFull contexts]
            attempts := [selected] }
      else
        -- lines 313–320: error with no failover available
        let provider_name := if selected = .primary then "Anthropic (Claude)" else "OpenAI (GPT-4)"
        { events := selEvents ++ [chunkEvent ("⚠️ " ++ provider_name ++ " error: " ++ e.take 150),
                      terminalEvent selFull contexts]
          attempts := [selected] }

/-- Outcome of the `/chat` endpoint: either the immediate configuration-error
object (`main.py` 229–232) or a streaming response. -/
inductive ChatResult where
  | configError (msg : String)
  | stream (r : StreamResult)
  deriving DecidableEq, Repr

/-- Shallow embedding of the `/chat` endpoint (`main.py` 226–333).  Returns the
outcome together with the list of provider services invoked. -/
def chat (primaryConfigured : Bool) (cfg : LLMConfig) (pref : String)
    (primaryRun fallbackRun : ProviderRun) (contexts : List String) :
    ChatResult × List Svc :=
  if primaryConfigured then
    let r := stream_response cfg pref primaryRun fallbackRun contexts
    (.stream r, r.attempts)
  else
    (.configError "AI service not configured. Please add OpenAI or Anthropic API key to .env file.", [])

/-! ## Music data model (`backend/models.py`, `backend/data/countries.py`) -/

/-- Model of `models.Track`. -/
structure Track where
  name : String
  artist : String
  preview_url : Option String
  image_url : Option String
  external_url : Option String
  deriving DecidableEq, Repr

/-- Model of `models.CountryMusic`.  Coordinates are opaque payload to every claim, so
they are carried as integers rather than floats. -/
structure CountryMusic where
  country_code : String
  country_name : String
  latitude : Int
  longitude : Int
  flag : Option String
  tracks : List Track
  source : String
  updated_at : String
  deriving DecidableEq, Repr

/-- One entry of the static `COUNTRIES` registry. -/
structure Country where
  code : String
  name : String
  lat : Int
  lon : Int
  flag : Option String
  deriving DecidableEq, Repr

/-! ## iTunes service (`backend/services/itunes_service.py`) -/

/-- One `entry` of the iTunes RSS feed as `get_country_top_tracks` reads it:
the extracted name/artist labels, the label of the last `im:image` (if any),
the href extracted from `link` (if any), and the preview URL that
`get_preview_url` would return for this track (`none` when that helper
returns None, i.e. on rate limiting, errors, or no result). -/
structure RSSEntry where
  name : String
  artist : String
  image : Option String
  link : Option String
  preview : Option String
  deriving DecidableEq, Repr

/-- The outcome of the HTTP GET inside `get_country_top_tracks`:
a 200 response whose feed parses to `entries`, a non-200 status, or an
exception raised during the request or while processing the body. -/
inductive RSSOutcome where
  | ok (entries : List RSSEntry)
  | status (code : Nat)
  | exn (msg : String)
  deriving DecidableEq, Repr

/-- Model of `ITunesService.get_country_top_tracks` (itunes_service.py 145–205): on a
non-200 status or an exception it returns `[]`; on success it maps the first
10 entries to `Track`s, fetching a preview URL only for indices < 5. -/
def get_country_top_tracks (res : RSSOutcome) : List Track :=
  match res with
  | .status _ => []
  | .exn _ => []
  | .ok entries =>
      (entries.take 10).enum.map fun p =>
        { name := p.2.name
          artist := p.2.artist
          preview_url := if p.1 < 5 then p.2.preview else none
          image_url := p.2.image
          external_url := p.2.link }

/-- Model of `fetch_country_music` (`main.py` 75–100).  The call to the iTunes service
is wrapped in `try/except Exception`, and `get_country_top_tracks` itself
catches its exceptions and returns `[]`, so this function always returns a
snapshot: `source` is `"itunes"` exactly when some tracks came back, else
`"none"` with an empty track list. -/
def fetch_country_music (country : Country) (res : RSSOutcome) (now : String) : CountryMusic :=
  let tracks := get_country_top_tracks res
  { country_code := country.code
    country_name := country.name
    latitude := country.lat
    longitude := country.lon
    flag := country.flag
    tracks := tracks
    source := if tracks.isEmpty then "none" else "itunes"
    updated_at := now }

/-- What `asyncio.gather(..., return_exceptions=True)` hands back for one
region's fetch task: either an exception that escaped `fetch_country_music`
(only possible outside its `try`, e.g. task cancellation), or the snapshot it
returned, determined by the provider outcome `res`. -/
inductive FetchOutcome where
  | exn (msg : String)
  | ok (res : RSSOutcome)
  deriving DecidableEq, Repr

/-! ## Region cache (`music_cache` dict in `main.py`) -/

/-- Python-dict assignment on a string-keyed association list: overwrites in
place when the key exists, appends otherwise, preserving insertion order. -/
def insertA {β : Type} : List (String × β) → String → β → List (String × β)
  | [], k, v => [(k, v)]
  | (k', v') :: t, k, v => if k' = k then (k, v) :: t else (k', v') :: insertA t k v

/-- Dict lookup, `none` when the key is absent. -/
def lookupA {β : Type} : List (String × β) → String → Option β
  | [], _ => none
  | (k', v') :: t, k => if k' = k then some v' else lookupA t k

/-- The cache is a Python dict keyed by country code; modelled as an
association list with Python-dict semantics. -/
abbrev Cache := List (String × CountryMusic)

/-! ## RAG service (`backend/services/rag_service.py`) -/

/-- The metadata record attached to one retrieval document
(rag_service.py 51–57). -/
structure DocMeta where
  country_code : String
  country_name : String
  source : String
  track_count : Nat
  updated_at : String
  deriving DecidableEq, Repr

/-- One retrieval document: rendered text plus metadata. -/
structure Doc where
  text : String
  metadata : DocMeta
  deriving DecidableEq, Repr

/-- The ChromaDB collection, as the list of (id, document) pairs it holds;
`add` appends, `delete` filters by id. -/
abbrev Collection := List (String × Doc)

/-- The per-country document text (rag_service.py 37–48).  The Python
f-string carries a leading newline and trailing indentation that `.strip()`
removes; the stripped form is rendered directly. -/
def docText (c : CountryMusic) : String :=
  let tracks_text := String.intercalate "\n"
    (c.tracks.map fun t => "- " ++ t.name ++ " by " ++ t.artist)
  "Country: " ++ c.country_name ++ " (" ++ c.country_code ++ ")\n" ++
    "Data Source: " ++ c.source ++ "\n" ++
    "Top Tracks:\n" ++ tracks_text ++ "\n" ++
    "Updated: " ++ c.updated_at

/-- The document built for one country (text, metadata, id = country code). -/
def mkDoc (c : CountryMusic) : Doc :=
  { text := docText c
    metadata :=
      { country_code := c.country_code
        country_name := c.country_name
        source := c.source
        track_count := c.tracks.length
        updated_at := c.updated_at } }

/-- Model of `RAGService.update_music_data` (rag_service.py 29–73): build one document
per country with id equal to its country code; if any documents were built,
delete the documents holding those same ids from the collection, then add the
new ones. -/
def rag_update (coll : Collection) (countries_data : List CountryMusic) : Collection :=
  let ids := countries_data.map (·.country_code)
  if countries_data.isEmpty then coll
  else
    (coll.filter fun p => ¬ p.1 ∈ ids) ++ countries_data.map fun c => (c.country_code, mkDoc c)

/-! ## Cache refresher (`update_music_data` in `main.py` 103–129) -/

/-- The observable actions of one refresh cycle, in order: a concurrent batch
of fetches (identified by the region codes fetched together), the 1-second
inter-batch sleep, and the terminal RAG index rebuild. -/
inductive Action where
  | fetchBatch (codes : List String)
  | sleep (secs : Nat)
  | rebuildIndex
  deriving DecidableEq, Repr

/-- The batch partition `COUNTRIES[i:i+5]` for `i = 0, 5, 10, ...`
(`main.py` 108–110): the list split into chunks of 5 in order, the last chunk
possibly shorter. -/
def chunks5 {α : Type} : List α → List (List α)
  | [] => []
  | a :: l => (a :: l.take 4) :: chunks5 (l.drop 4)
  termination_by l => l.length
  decreasing_by simp [List.length_drop]; omega

/-- The per-region cache update (`main.py` 114–118): an exception captured by
`gather` is logged and skipped, a returned snapshot is stored. -/
def storeResult (now : String) (cache : Cache) (p : Country × FetchOutcome) : Cache :=
  match p.2 with
  | .exn _ => cache
  | .ok res => insertA cache p.1.code (fetch_country_music p.1 res now)

/-- The batch loop of `update_music_data` (`main.py` 108–122): take the batch
of the first 5 regions, fetch them concurrently, store the non-exception
results, sleep 1 second if regions remain, recurse.  Each region is paired
with its fetch outcome. -/
def refreshLoop (now : String) (cache : Cache) :
    List (Country × FetchOutcome) → Cache × List Action
  | [] => (cache, [])
  | p :: rest =>
      let batch := p :: rest.take 4
      let remaining := rest.drop 4
      let cache' := batch.foldl (storeResult now) cache
      let out := refreshLoop now cache' remaining
      (out.1, Action.fetchBatch (batch.map (·.1.code)) ::
        (if remaining.isEmpty then [] else [Action.sleep 1]) ++ out.2)
  termination_by l => l.length
  decreasing_by simp [List.length_drop]; omega

/-- One full refresh cycle (`main.py` 103–129): run the batch loop over all
regions, then rebuild the RAG collection from every snapshot now in the cache
(`music_cache.values()`, in dict insertion order). -/
def update_music_data (now : String) (cache : Cache) (coll : Collection)
    (pairs : List (Country × FetchOutcome)) : Cache × Collection × List Action :=
  let out := refreshLoop now cache pairs
  (out.1, rag_update coll (out.1.map (·.2)), out.2 ++ [Action.rebuildIndex])

/-! ## Country lookup endpoint (`get_country` in `main.py` 181–187) -/

/-- The `/countries/{code}` response: a snapshot or the error object. -/
inductive CountryResult where
  | ok (c : CountryMusic)
  | err (msg : String)
  deriving DecidableEq, Repr

/-- Model of `country_code.upper()` (ASCII case mapping), character by character. -/
def upperStr (s : String) : String :=
  String.mk (s.data.map Char.toUpper)

/-- Model of `get_country`: uppercase the path parameter, look it up, and return the
error object when absent.  The endpoint only reads the cache; the returned
cache is the state after the request. -/
def get_country (cache : Cache) (country_code : String) : CountryResult × Cache :=
  let cc := upperStr country_code
  match lookupA cache cc with
  | some c => (.ok c, cache)
  | none => (.err "Country not found", cache)

/-! ## Track search (`search_tracks` in `itunes_service.py` 42–143) -/

/-- One iTunes Search API result object, with the optional keys
`_search_itunes` reads. -/
structure ITunesItem where
  trackName : Option String
  artistName : Option String
  previewUrl : Option String
  artworkUrl100 : Option String
  trackViewUrl : Option String
  deriving DecidableEq, Repr

/-- One Deezer search result object, with the keys `_search_deezer` reads
(artist name and album cover already projected from their nested objects). -/
structure DeezerItem where
  title : Option String
  artistName : Option String
  preview : Option String
  coverMedium : Option String
  link : Option String
  deriving DecidableEq, Repr

/-- The outcome of an HTTP search request: parsed results on 200, a non-200
status, or an exception. -/
inductive SearchOutcome (α : Type) where
  | ok (results : List α)
  | status (code : Nat)
  | exn (msg : String)
  deriving DecidableEq, Repr

/-- Model of `ITunesService._search_itunes` (itunes_service.py 61–106): on 200, map
each result to a `Track` with `"Unknown"`/`"Unknown Artist"` defaults; on
rate limiting (403/429), any other status, or an exception, return `[]`. -/
def search_itunes (resp : SearchOutcome ITunesItem) : List Track :=
  match resp with
  | .ok results =>
      results.map fun r =>
        { name := r.trackName.getD "Unknown"
          artist := r.artistName.getD "Unknown Artist"
          preview_url := r.previewUrl
          image_url := r.artworkUrl100
          external_url := r.trackViewUrl }
  | .status _ => []
  | .exn _ => []

/-- Model of `ITunesService._search_deezer` (itunes_service.py 108–143): on 200, map
each result to a `Track`; on any other status or an exception, fall through
to `return []`. -/
def search_deezer (resp : SearchOutcome DeezerItem) : List Track :=
  match resp with
  | .ok results =>
      results.map fun r =>
        { name := r.title.getD "Unknown"
          artist := r.artistName.getD "Unknown Artist"
          preview_url := r.preview
          image_url := r.coverMedium
          external_url := r.link }
  | .status _ => []
  | .exn _ => []

/-- Model of `ITunesService.search_tracks` (itunes_service.py 42–59): try iTunes; if
it produced no tracks, fall back to Deezer. -/
def search_tracks (itunesResp : SearchOutcome ITunesItem)
    (deezerResp : SearchOutcome DeezerItem) : List Track :=
  let tracks := search_itunes itunesResp
  if tracks.isEmpty then search_deezer deezerResp else tracks

/-! ## Theorems: streaming orchestrator -/

theorem countP_chunkEvents (l : List String) :
    (l.map chunkEvent).countP (fun e => e.full_response.isSome) = 0 := by
  simp [chunkEvent]

theorem mem_append_singleton_last {α : Type} (l : List α) (a : α) :
    (l ++ [a]).getLast? = some a := by
  simp [List.getLast?_concat]

/-- Claim C4: Every run of `stream_response` emits exactly one event carrying a
`full_response` payload; that event is the last one emitted and has the
terminal shape `{chunk: "", done: true, full_response: text, contexts: list}`
with the request's retrieval contexts — on the successful path, the recovered
and the failed failover paths, and the non-retriable error path alike. -/
theorem stream_response_single_terminal (cfg : LLMConfig) (pref : String)
    (primaryRun fallbackRun : ProviderRun) (contexts : List String) :
    ((stream_response cfg pref primaryRun fallbackRun contexts).events.countP
        (fun e => e.full_response.isSome) = 1) ∧
    (∃ full, (stream_response cfg pref primaryRun fallbackRun contexts).events.getLast?
        = some { chunk := "", done := true, full_response := some full,
                 contexts := some contexts }) := by
  unfold stream_response
  cases herr : (selRun cfg pref primaryRun fallbackRun).error with
  | none =>
      refine ⟨?_, String.join (selRun cfg pref primaryRun fallbackRun).chunks, ?_⟩
      · simp [herr, List.countP_append, chunkEvent, terminalEvent]
      · simp [herr, terminalEvent, mem_append_singleton_last]
  | some e =>
      by_cases hauto : pref = "auto" ∧ cfg.fallbackConfigured = true ∧ selectedSvc cfg pref = Svc.primary
      · obtain ⟨hp, hfbc, hsel⟩ := hauto
        subst hp
        cases hret : isRetriable e with
        | true =>
            cases hfb : fallbackRun.error with
            | none =>
                refine ⟨?_, String.join fallbackRun.chunks, ?_⟩ <;>
                  simp [herr, hsel, hfbc, hret, hfb, List.countP_append, chunkEvent,
                    noticeEvent, terminalEvent, mem_append_singleton_last, ← List.append_assoc]
            | some e2 =>
                refine ⟨?_, String.join fallbackRun.chunks, ?_⟩ <;>
                  simp [herr, hsel, hfbc, hret, hfb, List.countP_append, chunkEvent,
                    noticeEvent, terminalEvent, mem_append_singleton_last, ← List.append_assoc]
        | false =>
            refine ⟨?_, String.join (selRun cfg "auto" primaryRun fallbackRun).chunks, ?_⟩ <;>
              simp [herr, hsel, hfbc, hret, List.countP_append, chunkEvent,
                terminalEvent, mem_append_singleton_last, ← List.append_assoc]
      · refine ⟨?_, String.join (selRun cfg pref primaryRun fallbackRun).chunks, ?_⟩ <;>
          simp [herr, hauto, List.countP_append, chunkEvent,
            terminalEvent, mem_append_singleton_last, ← List.append_assoc]

/-- Claim C1: If the primary provider raises an overload/rate-limit-classified
error after emitting some fragments and the secondary provider then streams to
completion, the terminal record's `full_response` is exactly the concatenation
of the secondary provider's fragments: the accumulation buffer is reset, not
appended, on failover, so no partial primary output is included. -/
theorem failover_resets_accumulator (cfg : LLMConfig)
    (primaryRun fallbackRun : ProviderRun) (contexts : List String) (e : String)
    (hfb : cfg.fallbackConfigured = true)
    (herr : primaryRun.error = some e)
    (hret : isRetriable e = true)
    (_hsome : primaryRun.chunks ≠ [])
    (hsec : fallbackRun.error = none) :
    (stream_response cfg "auto" primaryRun fallbackRun contexts).events.getLast?
      = some { chunk := "", done := true,
               full_response := some (String.join fallbackRun.chunks),
               contexts := some contexts } := by
  have hsel : selectedSvc cfg "auto" = Svc.primary := by simp [selectedSvc]
  have hrun : selRun cfg "auto" primaryRun fallbackRun = primaryRun := by
    simp [selRun, hsel]
  unfold stream_response
  rw [hrun]
  simp [herr, hsel, hfb, hret, hsec, terminalEvent, mem_append_singleton_last,
    ← List.append_assoc]

theorem failover_resets_accumulator_witness :
    let cfg : LLMConfig := { provider := "anthropic", fallbackConfigured := true }
    let primaryRun : ProviderRun := { chunks := ["Hel"], error := some "Error 529: overloaded" }
    let fallbackRun : ProviderRun := { chunks := ["Hi", " there"], error := none }
    (stream_response cfg "auto" primaryRun fallbackRun ["ctx"]).events.getLast?
      = some { chunk := "", done := true, full_response := some (String.join ["Hi", " there"]),
               contexts := some ["ctx"] } :=
  failover_resets_accumulator _ _ _ _ "Error 529: overloaded"
    rfl rfl (by decide) (by decide) rfl

/-- Claim C2: A failover is attempted iff the selected stream raised, the
preference was "auto", a secondary handle is configured, the selected handle
was the primary, and the error text matches an overload/rate-limit marker;
at most one failover hop occurs, any non-failover error ends the request with
a user-visible error fragment and no further provider attempt, and a failure
of the secondary during failover yields the terminal both-unavailable
fragment with no third attempt. -/
theorem failover_iff_conditions (cfg : LLMConfig) (pref : String)
    (primaryRun fallbackRun : ProviderRun) (contexts : List String) :
    ((stream_response cfg pref primaryRun fallbackRun contexts).attempts.length ≤ 2) ∧
    ((stream_response cfg pref primaryRun fallbackRun contexts).attempts
        = [Svc.primary, Svc.fallback] ↔
      pref = "auto" ∧ cfg.fallbackConfigured = true ∧ selectedSvc cfg pref = Svc.primary ∧
        ∃ e, (selRun cfg pref primaryRun fallbackRun).error = some e ∧ isRetriable e = true) ∧
    (∀ e, (selRun cfg pref primaryRun fallbackRun).error = some e →
      (stream_response cfg pref primaryRun fallbackRun contexts).attempts
          ≠ [Svc.primary, Svc.fallback] →
      (stream_response cfg pref primaryRun fallbackRun contexts).attempts
          = [selectedSvc cfg pref] ∧
      ∃ name, chunkEvent ("⚠️ " ++ name ++ " error: " ++ e.take 150)
          ∈ (stream_response cfg pref primaryRun fallbackRun contexts).events) ∧
    (∀ e2, fallbackRun.error = some e2 →
      (stream_response cfg pref primaryRun fallbackRun contexts).attempts
          = [Svc.primary, Svc.fallback] →
      chunkEvent "⚠️ Both AI providers are unavailable. Please try again in a moment."
          ∈ (stream_response cfg pref primaryRun fallbackRun contexts).events) := by
  unfold stream_response
  cases herr : (selRun cfg pref primaryRun fallbackRun).error with
  | none =>
      refine ⟨by simp [herr], ⟨by simp [herr], ?_⟩, by simp [herr], ?_⟩
      · rintro ⟨-, -, -, e, he, -⟩
        simp [herr] at he
      · intro e2 he2 habs
        simp [herr] at habs
  | some e =>
      by_cases hauto : pref = "auto" ∧ cfg.fallbackConfigured = true ∧ selectedSvc cfg pref = Svc.primary
      · obtain ⟨hp, hfbc, hsel⟩ := hauto
        subst hp
        cases hret : isRetriable e with
        | true =>
            refine ⟨by simp [herr, hsel, hfbc, hret],
              ⟨fun _ => ⟨rfl, hfbc, hsel, e, rfl, hret⟩,
                fun _ => by simp [herr, hsel, hfbc, hret]⟩, ?_, ?_⟩
            · intro e' he' hne
              exact absurd (by simp [herr, hsel, hfbc, hret]) hne
            · intro e2 he2 _
              simp [herr, hsel, hfbc, hret, he2, chunkEvent]
        | false =>
            refine ⟨by simp [herr, hsel, hfbc, hret],
              ⟨by simp [herr, hsel, hfbc, hret], ?_⟩, ?_, ?_⟩
            · rintro ⟨-, -, -, e', he', hre'⟩
              obtain rfl : e = e' := by injection he'
              rw [hret] at hre'
              exact absurd hre' (by simp)
            · intro e' he' _
              obtain rfl : e = e' := by injection he'
              refine ⟨by simp [herr, hsel, hfbc, hret], ?_⟩
              exact ⟨if cfg.provider = "anthropic" then "Anthropic (Claude)" else "OpenAI",
                by simp [herr, hsel, hfbc, hret, chunkEvent]⟩
            · intro e2 he2 habs
              simp [herr, hsel, hfbc, hret] at habs
      · have hno : ¬(pref = "auto" ∧ cfg.fallbackConfigured = true ∧
            selectedSvc cfg pref = Svc.primary ∧
            ∃ e', (some e : Option String) = some e' ∧ isRetriable e' = true) := by
          rintro ⟨h1, h2, h3, -⟩
          exact hauto ⟨h1, h2, h3⟩
        refine ⟨by simp [herr, hauto], ⟨by simp [herr, hauto], fun h => absurd h hno⟩, ?_, ?_⟩
        · intro e' he' _
          obtain rfl : e = e' := by injection he'
          refine ⟨by simp [herr, hauto], ?_⟩
          exact ⟨if selectedSvc cfg pref = Svc.primary then "Anthropic (Claude)"
                  else "OpenAI (GPT-4)",
            by simp [herr, hauto, chunkEvent]⟩
        · intro e2 he2 habs
          simp [herr, hauto] at habs

theorem failover_iff_conditions_witness :
    let cfg : LLMConfig := { provider := "anthropic", fallbackConfigured := true }
    let primaryRun : ProviderRun := { chunks := ["a"], error := some "rate_limit_error" }
    let fallbackRun : ProviderRun := { chunks := ["b"], error := some "boom" }
    (stream_response cfg "auto" primaryRun fallbackRun []).attempts
        = [Svc.primary, Svc.fallback] ∧
    chunkEvent "⚠️ Both AI providers are unavailable. Please try again in a moment."
        ∈ (stream_response cfg "auto" primaryRun fallbackRun []).events := by
  refine ⟨?_, ?_⟩
  · exact ((failover_iff_conditions { provider := "anthropic", fallbackConfigured := true }
      "auto" { chunks := ["a"], error := some "rate_limit_error" }
      { chunks := ["b"], error := some "boom" } []).2.1).2
      ⟨rfl, rfl, rfl, "rate_limit_error", rfl, by decide⟩
  · exact (failover_iff_conditions { provider := "anthropic", fallbackConfigured := true }
      "auto" { chunks := ["a"], error := some "rate_limit_error" }
      { chunks := ["b"], error := some "boom" } []).2.2.2 "boom" rfl (by decide)

/-- Claim C5: A chat request arriving when no primary provider is configured
returns the configuration-error message immediately, and no provider service
is ever invoked (the attempts list is empty). -/
theorem chat_unconfigured_no_provider_call (cfg : LLMConfig) (pref : String)
    (primaryRun fallbackRun : ProviderRun) (contexts : List String) :
    chat false cfg pref primaryRun fallbackRun contexts
      = (.configError
          "AI service not configured. Please add OpenAI or Anthropic API key to .env file.",
        []) := rfl

/-! ## Theorems: cache refresher and retrieval index -/

theorem lookupA_insertA_self {β : Type} (l : List (String × β)) (k : String) (v : β) :
    lookupA (insertA l k v) k = some v := by
  induction l with
  | nil => simp [insertA, lookupA]
  | cons p t ih =>
      obtain ⟨k', v'⟩ := p
      by_cases h : k' = k <;> simp [insertA, lookupA, h, ih]

theorem lookupA_insertA_ne {β : Type} (l : List (String × β)) (k k' : String) (v : β)
    (h : k ≠ k') : lookupA (insertA l k v) k' = lookupA l k' := by
  induction l with
  | nil => simp [insertA, lookupA, h]
  | cons p t ih =>
      obtain ⟨k₀, v₀⟩ := p
      by_cases h0 : k₀ = k
      · subst h0
        simp [insertA, lookupA, h]
      · simp [insertA, lookupA, h0, ih]

theorem lookupA_append_none {β : Type} (l1 l2 : List (String × β)) (k : String)
    (h : lookupA l1 k = none) : lookupA (l1 ++ l2) k = lookupA l2 k := by
  induction l1 with
  | nil => simp
  | cons p t ih =>
      obtain ⟨k', v'⟩ := p
      by_cases h0 : k' = k
      · simp [lookupA, h0] at h
      · simp [lookupA, h0] at h ⊢
        exact ih h

theorem insertA_eq_append {β : Type} (l : List (String × β)) (k : String) (v : β)
    (h : lookupA l k = none) : insertA l k v = l ++ [(k, v)] := by
  induction l with
  | nil => simp [insertA]
  | cons p t ih =>
      obtain ⟨k', v'⟩ := p
      by_cases h0 : k' = k
      · simp [lookupA, h0] at h
      · simp [lookupA, h0] at h
        simp [insertA, h0, ih h]

theorem refreshLoop_fst (now : String) :
    ∀ (n : Nat) (pairs : List (Country × FetchOutcome)), pairs.length ≤ n →
      ∀ cache : Cache,
        (refreshLoop now cache pairs).1 = pairs.foldl (storeResult now) cache := by
  intro n
  induction n with
  | zero =>
      intro pairs h cache
      obtain rfl : pairs = [] := List.eq_nil_of_length_eq_zero (Nat.le_zero.mp h)
      simp [refreshLoop]
  | succ n ih =>
      intro pairs h cache
      cases pairs with
      | nil => simp [refreshLoop]
      | cons p rest =>
          have hlen : (rest.drop 4).length ≤ n := by
            simp only [List.length_drop]
            simp only [List.length_cons] at h
            omega
          have hsplit : p :: rest = (p :: rest.take 4) ++ rest.drop 4 := by
            simp [List.take_append_drop]
          rw [refreshLoop]
          simp only []
          rw [ih _ hlen]
          conv_rhs => rw [hsplit, List.foldl_append]

theorem refreshLoop_snd (now : String) :
    ∀ (n : Nat) (pairs : List (Country × FetchOutcome)), pairs.length ≤ n →
      ∀ cache : Cache,
        (refreshLoop now cache pairs).2 =
          List.intersperse (Action.sleep 1)
            ((chunks5 pairs).map fun b => Action.fetchBatch (b.map fun p => p.1.code)) := by
  intro n
  induction n with
  | zero =>
      intro pairs h cache
      obtain rfl : pairs = [] := List.eq_nil_of_length_eq_zero (Nat.le_zero.mp h)
      simp [refreshLoop, chunks5]
  | succ n ih =>
      intro pairs h cache
      cases pairs with
      | nil => simp [refreshLoop, chunks5]
      | cons p rest =>
          have hlen : (rest.drop 4).length ≤ n := by
            simp only [List.length_drop]
            simp only [List.length_cons] at h
            omega
          rw [refreshLoop]
          simp only []
          rw [ih _ hlen]
          rw [chunks5]
          cases hrem : rest.drop 4 with
          | nil => simp [chunks5]
          | cons q t => simp [chunks5, List.intersperse_cons_cons]

theorem lookupA_foldl_store_not_mem (now : String)
    (pairs : List (Country × FetchOutcome)) (cache : Cache) (k : String)
    (h : ∀ p ∈ pairs, p.1.code ≠ k) :
    lookupA (pairs.foldl (storeResult now) cache) k = lookupA cache k := by
  induction pairs generalizing cache with
  | nil => simp
  | cons q t ih =>
      have hq : q.1.code ≠ k := h q (List.mem_cons_self q t)
      have ht : ∀ p ∈ t, p.1.code ≠ k := fun p hp => h p (List.mem_cons_of_mem q hp)
      rw [List.foldl_cons, ih _ ht]
      cases hout : q.2 with
      | exn m => simp [storeResult, hout]
      | ok res => simp [storeResult, hout, lookupA_insertA_ne _ _ _ _ hq]

theorem lookupA_foldl_store (now : String) (pairs : List (Country × FetchOutcome))
    (cache : Cache) (hnd : (pairs.map fun p => p.1.code).Nodup)
    (c : Country) (out : FetchOutcome) (hmem : (c, out) ∈ pairs) :
    lookupA (pairs.foldl (storeResult now) cache) c.code =
      match out with
      | .exn _ => lookupA cache c.code
      | .ok res => some (fetch_country_music c res now) := by
  induction pairs generalizing cache with
  | nil => cases hmem
  | cons q t ih =>
      simp only [List.map_cons, List.nodup_cons] at hnd
      rcases List.mem_cons.mp hmem with heq | hmem'
      · subst heq
        have ht : ∀ p ∈ t, p.1.code ≠ c.code := by
          intro p hp hcontra
          exact hnd.1 (hcontra ▸ List.mem_map_of_mem (fun p => p.1.code) hp)
        rw [List.foldl_cons, lookupA_foldl_store_not_mem now t _ _ ht]
        cases out with
        | exn m => simp [storeResult]
        | ok res => simp [storeResult, lookupA_insertA_self]
      · have hcode : q.1.code ≠ c.code := by
          intro hcontra
          exact hnd.1 (hcontra ▸ List.mem_map_of_mem (fun p => p.1.code) hmem')
        rw [List.foldl_cons]
        rw [ih _ hnd.2 hmem']
        cases out with
        | exn m =>
            cases hout : q.2 with
            | exn m2 => simp [storeResult, hout]
            | ok res2 => simp [storeResult, hout, lookupA_insertA_ne _ _ _ _ hcode]
        | ok res => simp

theorem foldl_store_ok_append (now : String) (l : List (Country × RSSOutcome)) :
    ∀ cache : Cache, (∀ q ∈ l, lookupA cache q.1.code = none) →
      (l.map fun q => q.1.code).Nodup →
      (l.map fun q => (q.1, FetchOutcome.ok q.2)).foldl (storeResult now) cache
        = cache ++ l.map fun q => (q.1.code, fetch_country_music q.1 q.2 now) := by
  induction l with
  | nil => intro cache _ _; simp
  | cons q t ih =>
      intro cache hnew hnd
      simp only [List.map_cons, List.nodup_cons] at hnd
      have hq : lookupA cache q.1.code = none := hnew q (List.mem_cons_self q t)
      rw [List.map_cons, List.foldl_cons]
      have hstep : storeResult now cache (q.1, FetchOutcome.ok q.2)
          = cache ++ [(q.1.code, fetch_country_music q.1 q.2 now)] := by
        simp [storeResult, insertA_eq_append _ _ _ hq]
      rw [hstep]
      rw [ih _ ?_ hnd.2]
      · simp
      · intro q' hq'
        have hne : q.1.code ≠ q'.1.code := by
          intro hcontra
          exact hnd.1 (hcontra ▸ List.mem_map_of_mem (fun p => p.1.code) hq')
        rw [lookupA_append_none _ _ _ (hnew q' (List.mem_cons_of_mem q hq'))]
        simp [lookupA, hne]

theorem chunks5_join {α : Type} :
    ∀ (n : Nat) (l : List α), l.length ≤ n → (chunks5 l).flatten = l := by
  intro n
  induction n with
  | zero =>
      intro l h
      obtain rfl : l = [] := List.eq_nil_of_length_eq_zero (Nat.le_zero.mp h)
      simp [chunks5]
  | succ n ih =>
      intro l h
      cases l with
      | nil => simp [chunks5]
      | cons a t =>
          have hlen : (t.drop 4).length ≤ n := by
            simp only [List.length_drop]
            simp only [List.length_cons] at h
            omega
          rw [chunks5]
          simp only [List.flatten_cons, ih _ hlen]
          simp [List.take_append_drop]

theorem chunks5_sizes {α : Type} :
    ∀ (n : Nat) (l : List α), l.length ≤ n →
      ∀ b ∈ chunks5 l, b ≠ [] ∧ b.length ≤ 5 := by
  intro n
  induction n with
  | zero =>
      intro l h
      obtain rfl : l = [] := List.eq_nil_of_length_eq_zero (Nat.le_zero.mp h)
      simp [chunks5]
  | succ n ih =>
      intro l h b hb
      cases l with
      | nil => simp [chunks5] at hb
      | cons a t =>
          have hlen : (t.drop 4).length ≤ n := by
            simp only [List.length_drop]
            simp only [List.length_cons] at h
            omega
          rw [chunks5] at hb
          rcases List.mem_cons.mp hb with heq | hmem
          · subst heq
            refine ⟨by simp, ?_⟩
            have := List.length_take_le 4 t
            simp only [List.length_cons]
            omega
          · exact ih _ hlen b hmem

/-- Claim C3, counterexample: A region whose fetch fails at the provider level
(here: HTTP 500 from the iTunes RSS endpoint) does NOT keep its previous
cache entry: `get_country_top_tracks` swallows the failure and returns `[]`,
`fetch_country_music` turns that into an empty snapshot with source `"none"`,
and `update_music_data` stores it, replacing the previously cached snapshot. -/
theorem fetch_failure_overwrites_cache_counterexample :
    lookupA (update_music_data "T1"
        [("JP", { country_code := "JP", country_name := "Japan", latitude := 36,
                  longitude := 138, flag := none,
                  tracks := [{ name := "Song", artist := "Artist", preview_url := none,
                               image_url := none, external_url := none }],
                  source := "itunes", updated_at := "T0" })]
        []
        [({ code := "JP", name := "Japan", lat := 36, lon := 138, flag := none },
          FetchOutcome.ok (RSSOutcome.status 500))]).1 "JP"
      ≠ some { country_code := "JP", country_name := "Japan", latitude := 36,
               longitude := 138, flag := none,
               tracks := [{ name := "Song", artist := "Artist", preview_url := none,
                            image_url := none, external_url := none }],
               source := "itunes", updated_at := "T0" } := by
  simp [update_music_data, refreshLoop, storeResult, fetch_country_music,
    get_country_top_tracks, insertA, lookupA]

/-- Claim C3, amended: Per-region failure isolation holds only at the task
level: a region whose fetch task raises an exception that escapes
`fetch_country_music` (captured by `gather`) keeps its previous cache entry,
and sibling regions whose fetches succeed are updated; but a provider-level
fetch failure (non-200 status or an exception caught inside
`get_country_top_tracks`) replaces the previous entry with an empty snapshot
whose source is `"none"`. -/
theorem fetch_failure_isolation (now : String) (cache : Cache) (coll : Collection)
    (pairs : List (Country × FetchOutcome))
    (hnd : (pairs.map fun p => p.1.code).Nodup) :
    (∀ c m, (c, FetchOutcome.exn m) ∈ pairs →
      lookupA (update_music_data now cache coll pairs).1 c.code = lookupA cache c.code) ∧
    (∀ c r, (c, FetchOutcome.ok r) ∈ pairs →
      lookupA (update_music_data now cache coll pairs).1 c.code
        = some (fetch_country_music c r now)) ∧
    (∀ c st, (c, FetchOutcome.ok (RSSOutcome.status st)) ∈ pairs →
      lookupA (update_music_data now cache coll pairs).1 c.code
        = some { country_code := c.code, country_name := c.name, latitude := c.lat,
                 longitude := c.lon, flag := c.flag, tracks := [], source := "none",
                 updated_at := now }) := by
  have hfst : (update_music_data now cache coll pairs).1
      = pairs.foldl (storeResult now) cache := by
    simp [update_music_data, refreshLoop_fst now pairs.length pairs le_rfl cache]
  refine ⟨?_, ?_, ?_⟩
  · intro c m hmem
    rw [hfst]
    exact lookupA_foldl_store now pairs cache hnd c (.exn m) hmem
  · intro c r hmem
    rw [hfst]
    exact lookupA_foldl_store now pairs cache hnd c (.ok r) hmem
  · intro c st hmem
    rw [hfst]
    have := lookupA_foldl_store now pairs cache hnd c (.ok (RSSOutcome.status st)) hmem
    simpa [fetch_country_music, get_country_top_tracks] using this

theorem fetch_failure_isolation_witness :
    lookupA (update_music_data "T1"
        [("JP", { country_code := "JP", country_name := "Japan", latitude := 36,
                  longitude := 138, flag := none, tracks := [],
                  source := "none", updated_at := "T0" })]
        []
        [({ code := "JP", name := "Japan", lat := 36, lon := 138, flag := none },
          FetchOutcome.exn "CancelledError"),
         ({ code := "US", name := "United States", lat := 37, lon := -95, flag := none },
          FetchOutcome.ok (RSSOutcome.ok []))]).1 "JP"
      = lookupA
          [("JP", { country_code := "JP", country_name := "Japan", latitude := 36,
                    longitude := 138, flag := none, tracks := [],
                    source := "none", updated_at := "T0" })] "JP" :=
  (fetch_failure_isolation "T1" _ [] _ (by decide)).1
    { code := "JP", name := "Japan", lat := 36, lon := 138, flag := none }
    "CancelledError" (by decide)

theorem chunks5_eq_nil_iff {α : Type} (l : List α) : chunks5 l = [] ↔ l = [] := by
  cases l <;> simp [chunks5]

theorem chunks5_dropLast_length {α : Type} :
    ∀ (n : Nat) (l : List α), l.length ≤ n →
      ∀ b ∈ (chunks5 l).dropLast, b.length = 5 := by
  intro n
  induction n with
  | zero =>
      intro l h
      obtain rfl : l = [] := List.eq_nil_of_length_eq_zero (Nat.le_zero.mp h)
      simp [chunks5]
  | succ n ih =>
      intro l h b hb
      cases l with
      | nil => simp [chunks5] at hb
      | cons a t =>
          have hlen : (t.drop 4).length ≤ n := by
            simp only [List.length_drop]
            simp only [List.length_cons] at h
            omega
          rw [chunks5] at hb
          cases hrem : chunks5 (t.drop 4) with
          | nil => simp [hrem] at hb
          | cons c cs =>
              rw [hrem, List.dropLast_cons₂] at hb
              rcases List.mem_cons.mp hb with heq | hmem
              · subst heq
                have ht : 4 < t.length := by
                  by_contra hle
                  push_neg at hle
                  have : t.drop 4 = [] := List.drop_eq_nil_of_le hle
                  rw [this] at hrem
                  simp [chunks5] at hrem
                simp only [List.length_cons, List.length_take]
                omega
              · have := ih _ hlen b
                rw [hrem] at this
                exact this hmem

/-- Claim C6: One refresh cycle partitions the regions, in order, into batches
of 5 (all full except possibly the last), issues each batch as one concurrent
fetch action, sleeps 1 second between consecutive batches but not after the
last, rebuilds the Retrieval Index exactly once as the final action after all
batches, and isolates per-region failures: every region whose fetch succeeds
is cached no matter what happened to its siblings. -/
theorem refresh_batch_structure (now : String) (cache : Cache) (coll : Collection)
    (pairs : List (Country × FetchOutcome))
    (hnd : (pairs.map fun p => p.1.code).Nodup) :
    ((update_music_data now cache coll pairs).2.2
        = List.intersperse (Action.sleep 1)
            ((chunks5 pairs).map fun b => Action.fetchBatch (b.map fun p => p.1.code))
          ++ [Action.rebuildIndex]) ∧
    ((chunks5 pairs).flatten = pairs) ∧
    (∀ b ∈ chunks5 pairs, b ≠ [] ∧ b.length ≤ 5) ∧
    (∀ b ∈ (chunks5 pairs).dropLast, b.length = 5) ∧
    (∀ c r, (c, FetchOutcome.ok r) ∈ pairs →
      lookupA (update_music_data now cache coll pairs).1 c.code
        = some (fetch_country_music c r now)) := by
  refine ⟨?_, chunks5_join pairs.length pairs le_rfl,
    chunks5_sizes pairs.length pairs le_rfl,
    chunks5_dropLast_length pairs.length pairs le_rfl, ?_⟩
  · simp [update_music_data, refreshLoop_snd now pairs.length pairs le_rfl cache]
  · intro c r hmem
    have hfst : (update_music_data now cache coll pairs).1
        = pairs.foldl (storeResult now) cache := by
      simp [update_music_data, refreshLoop_fst now pairs.length pairs le_rfl cache]
    rw [hfst]
    exact lookupA_foldl_store now pairs cache hnd c (.ok r) hmem

theorem refresh_batch_structure_witness :
    (update_music_data "T1" [] []
        [({ code := "JP", name := "Japan", lat := 36, lon := 138, flag := none },
          FetchOutcome.ok (RSSOutcome.ok []))]).2.2
      = [Action.fetchBatch ["JP"], Action.rebuildIndex] ∧
    lookupA (update_music_data "T1" [] []
        [({ code := "JP", name := "Japan", lat := 36, lon := 138, flag := none },
          FetchOutcome.ok (RSSOutcome.ok []))]).1 "JP"
      = some (fetch_country_music
          { code := "JP", name := "Japan", lat := 36, lon := 138, flag := none }
          (RSSOutcome.ok []) "T1") := by
  constructor
  · have h := (refresh_batch_structure "T1" [] []
      [({ code := "JP", name := "Japan", lat := 36, lon := 138, flag := none },
        FetchOutcome.ok (RSSOutcome.ok []))] (by decide)).1
    rw [h]
    simp [chunks5]
  · exact (refresh_batch_structure "T1" [] []
      [({ code := "JP", name := "Japan", lat := 36, lon := 138, flag := none },
        FetchOutcome.ok (RSSOutcome.ok []))] (by decide)).2.2.2.2
      { code := "JP", name := "Japan", lat := 36, lon := 138, flag := none }
      (RSSOutcome.ok []) (by decide)

/-- Claim C7: Starting from an empty cache and an empty collection, one refresh
cycle over M regions whose fetches all succeed yields exactly M cache entries
keyed by the region codes, and exactly M retrieval documents whose ids are
the region codes. -/
theorem refresh_from_empty (now : String) (l : List (Country × RSSOutcome))
    (hnd : (l.map fun q => q.1.code).Nodup) :
    ((update_music_data now [] [] (l.map fun q => (q.1, FetchOutcome.ok q.2))).1.length
        = l.length) ∧
    ((update_music_data now [] [] (l.map fun q => (q.1, FetchOutcome.ok q.2))).1.map Prod.fst
        = l.map fun q => q.1.code) ∧
    ((update_music_data now [] [] (l.map fun q => (q.1, FetchOutcome.ok q.2))).2.1.length
        = l.length) ∧
    ((update_music_data now [] [] (l.map fun q => (q.1, FetchOutcome.ok q.2))).2.1.map Prod.fst
        = l.map fun q => q.1.code) := by
  have hnd' : (((l.map fun q => (q.1, FetchOutcome.ok q.2)).map fun p => p.1.code)).Nodup := by
    simpa [List.map_map, Function.comp] using hnd
  have hfoldl : (l.map fun q => (q.1, FetchOutcome.ok q.2)).foldl (storeResult now) []
      = l.map fun q => (q.1.code, fetch_country_music q.1 q.2 now) := by
    have := foldl_store_ok_append now l [] (fun q _ => rfl) hnd
    simpa using this
  have hfst : (update_music_data now [] [] (l.map fun q => (q.1, FetchOutcome.ok q.2))).1
      = l.map fun q => (q.1.code, fetch_country_music q.1 q.2 now) := by
    rw [update_music_data]
    simp only []
    rw [refreshLoop_fst now (l.map fun q => (q.1, FetchOutcome.ok q.2)).length _ le_rfl]
    exact hfoldl
  have hvals : (update_music_data now [] [] (l.map fun q => (q.1, FetchOutcome.ok q.2))).1.map
        Prod.snd = l.map fun q => fetch_country_music q.1 q.2 now := by
    rw [hfst]
    simp [List.map_map, Function.comp]
  have hsnd : (update_music_data now [] [] (l.map fun q => (q.1, FetchOutcome.ok q.2))).2.1
      = rag_update []
          ((update_music_data now [] [] (l.map fun q => (q.1, FetchOutcome.ok q.2))).1.map
            Prod.snd) := rfl
  refine ⟨by rw [hfst]; simp, by rw [hfst]; simp [List.map_map, Function.comp], ?_, ?_⟩
  · rw [hsnd, hvals]
    cases l with
    | nil => simp [rag_update]
    | cons q t => simp [rag_update, List.map_map, Function.comp]
  · rw [hsnd, hvals]
    cases l with
    | nil => simp [rag_update]
    | cons q t =>
        simp [rag_update, List.map_map, Function.comp, fetch_country_music]

theorem refresh_from_empty_witness :
    ((update_music_data "T1" [] []
        ([({ code := "JP", name := "Japan", lat := 36, lon := 138, flag := none },
            RSSOutcome.ok []),
          ({ code := "US", name := "United States", lat := 37, lon := -95, flag := none },
            RSSOutcome.ok [])].map fun q => (q.1, FetchOutcome.ok q.2))).1.length = 2) ∧
    ((update_music_data "T1" [] []
        ([({ code := "JP", name := "Japan", lat := 36, lon := 138, flag := none },
            RSSOutcome.ok []),
          ({ code := "US", name := "United States", lat := 37, lon := -95, flag := none },
            RSSOutcome.ok [])].map fun q => (q.1, FetchOutcome.ok q.2))).2.1.map Prod.fst
      = ["JP", "US"]) := by
  have h := refresh_from_empty "T1"
    [({ code := "JP", name := "Japan", lat := 36, lon := 138, flag := none },
       RSSOutcome.ok []),
     ({ code := "US", name := "United States", lat := 37, lon := -95, flag := none },
       RSSOutcome.ok [])] (by decide)
  exact ⟨h.1, h.2.2.2⟩

theorem lookupA_eq_none {β : Type} (l : List (String × β)) (k : String)
    (h : ∀ p ∈ l, p.1 ≠ k) : lookupA l k = none := by
  induction l with
  | nil => rfl
  | cons p t ih =>
      obtain ⟨k', v'⟩ := p
      have hk : k' ≠ k := h (k', v') (List.mem_cons_self _ t)
      simp [lookupA, hk]
      exact ih fun q hq => h q (List.mem_cons_of_mem _ hq)

theorem lookupA_map_mkDoc (data : List CountryMusic)
    (hnd : (data.map fun d => d.country_code).Nodup) (c : CountryMusic) (hc : c ∈ data) :
    lookupA (data.map fun d => (d.country_code, mkDoc d)) c.country_code = some (mkDoc c) := by
  induction data with
  | nil => cases hc
  | cons d t ih =>
      simp only [List.map_cons, List.nodup_cons] at hnd
      rcases List.mem_cons.mp hc with rfl | hct
      · simp [lookupA]
      · have hne : d.country_code ≠ c.country_code := fun hcontra =>
          hnd.1 (hcontra ▸ List.mem_map_of_mem (fun d => d.country_code) hct)
        simp only [List.map_cons, lookupA, hne, if_false]
        exact ih hnd.2 hct

/-- Claim C8: An index rebuild replaces documents rather than merging: afterwards
the document ids are pairwise distinct (at most one document per region), the
unique document for every refreshed region is the freshly built one, and any
document whose id is a refreshed region code is a fresh document — no stale
document coexists with a fresh one for the same region. -/
theorem rag_update_full_replacement (coll : Collection) (data : List CountryMusic)
    (hcoll : (coll.map Prod.fst).Nodup) (hnd : (data.map fun d => d.country_code).Nodup) :
    (((rag_update coll data).map Prod.fst).Nodup) ∧
    (∀ c ∈ data, lookupA (rag_update coll data) c.country_code = some (mkDoc c)) ∧
    (∀ p ∈ rag_update coll data, p.1 ∈ data.map (fun d => d.country_code) →
      p.2 ∈ data.map mkDoc) := by
  cases data with
  | nil => exact ⟨by simpa [rag_update] using hcoll, by simp, by simp⟩
  | cons d t =>
      have hrw : rag_update coll (d :: t)
          = (coll.filter fun p => ¬ p.1 ∈ (d :: t).map (fun c => c.country_code))
            ++ (d :: t).map fun c => (c.country_code, mkDoc c) := by
        simp [rag_update]
      refine ⟨?_, ?_, ?_⟩
      · rw [hrw, List.map_append]
        refine List.Nodup.append ?_ ?_ ?_
        · exact ((List.filter_sublist _).map Prod.fst).nodup hcoll
        · simpa [List.map_map, Function.comp] using hnd
        · intro a ha hb
          simp only [List.map_map, Function.comp] at hb
          obtain ⟨p, hp, rfl⟩ := List.mem_map.mp ha
          have := List.of_mem_filter hp
          simp only [decide_not, Bool.not_eq_true', decide_eq_false_iff_not] at this
          exact this (by simpa [List.map_map, Function.comp] using hb)
      · intro c hc
        rw [hrw]
        rw [lookupA_append_none]
        · exact lookupA_map_mkDoc (d :: t) hnd c hc
        · refine lookupA_eq_none _ _ ?_
          intro p hp
          have := List.of_mem_filter hp
          simp only [decide_not, Bool.not_eq_true', decide_eq_false_iff_not] at this
          intro hcontra
          exact this (hcontra ▸ List.mem_map_of_mem (fun d => d.country_code) hc)
      · intro p hp hid
        rw [hrw] at hp
        rcases List.mem_append.mp hp with hfil | hnew
        · have := List.of_mem_filter hfil
          simp only [decide_not, Bool.not_eq_true', decide_eq_false_iff_not] at this
          exact absurd hid this
        · obtain ⟨c, hc, rfl⟩ := List.mem_map.mp hnew
          exact List.mem_map_of_mem mkDoc hc

/-- A stale document under id "JP", for exercising the rebuild. -/
def staleJPDoc : Doc :=
  { text := "stale"
    metadata :=
      { country_code := "JP", country_name := "Japan", source := "itunes",
        track_count := 3, updated_at := "T0" } }

/-- A fresh snapshot for "JP", for exercising the rebuild. -/
def freshJPSnap : CountryMusic :=
  { country_code := "JP", country_name := "Japan", latitude := 36, longitude := 138,
    flag := none, tracks := [], source := "none", updated_at := "T1" }

theorem rag_update_full_replacement_witness :
    (((rag_update [("JP", staleJPDoc)] [freshJPSnap]).map Prod.fst).Nodup) ∧
    (lookupA (rag_update [("JP", staleJPDoc)] [freshJPSnap]) "JP"
      = some (mkDoc freshJPSnap)) := by
  have h := rag_update_full_replacement [("JP", staleJPDoc)] [freshJPSnap]
    (by decide) (by decide)
  exact ⟨h.1, by simpa [freshJPSnap] using h.2.1 freshJPSnap (by decide)⟩

/-- Claim C9: The single-country endpoint is case-insensitive: the path
parameter is uppercased before the cache lookup, so any two spellings with
the same uppercase form get the same response; the cache is never modified;
and an absent (uppercased) code yields the `{"error": "Country not found"}`
object. -/
theorem get_country_case_insensitive (cache : Cache) (s t : String)
    (h : upperStr s = upperStr t) :
    get_country cache s = get_country cache t ∧
    (get_country cache s).2 = cache ∧
    (lookupA cache (upperStr s) = none →
      (get_country cache s).1 = CountryResult.err "Country not found") := by
  refine ⟨by simp [get_country, h], ?_, ?_⟩
  · unfold get_country
    cases h' : lookupA cache (upperStr s) <;> simp [h']
  · intro hnone
    simp [get_country, hnone]

theorem get_country_case_insensitive_witness :
    get_country [] "jp" = get_country [] "Jp" ∧
    (get_country [] "jp").1 = CountryResult.err "Country not found" := by
  have h := get_country_case_insensitive [] "jp" "Jp" (by decide)
  exact ⟨h.1, h.2.2 rfl⟩

/-- Claim C10: `search_tracks` always returns a list (every branch of the two
underlying searches catches its errors and returns a list): it returns the
iTunes results when they are non-empty, falls back to the Deezer results
whenever the iTunes search yields an empty list (rate-limited, non-200,
exception, or zero results), and returns the empty list only when both
sources yield nothing. -/
theorem search_tracks_deezer_fallback (ir : SearchOutcome ITunesItem)
    (dr : SearchOutcome DeezerItem) :
    (search_tracks ir dr = [] ↔ search_itunes ir = [] ∧ search_deezer dr = []) ∧
    (search_itunes ir ≠ [] → search_tracks ir dr = search_itunes ir) ∧
    (search_itunes ir = [] → search_tracks ir dr = search_deezer dr) := by
  by_cases h : search_itunes ir = [] <;>
    simp [search_tracks, h]

theorem search_tracks_deezer_fallback_witness :
    search_tracks (SearchOutcome.status 429)
        (SearchOutcome.ok [{ title := some "Song", artistName := some "Artist",
                             preview := none, coverMedium := none, link := none }])
      = search_deezer
          (SearchOutcome.ok [{ title := some "Song", artistName := some "Artist",
                               preview := none, coverMedium := none, link := none }]) :=
  (search_tracks_deezer_fallback (SearchOutcome.status 429)
      (SearchOutcome.ok [{ title := some "Song", artistName := some "Artist",
                           preview := none, coverMedium := none, link := none }])).2.2 rfl

end GlobeBeats
